import Mathlib

set_option allowUnsafeReducibility true in
attribute [semireducible] Rat.add Rat.mul Rat.sub Rat.inv

/-!
Verification development for the YFIN trading-bot repository.

The portfolio ledger (`portfolio_manager.py`) and the signal/sizing
functions (`trading_logic.py`) are embedded shallowly:

* Python `float` amounts are modelled as `ℚ` (the spec and the claims state
  exact decimal arithmetic; no rounding behaviour is at issue in any claim);
* Python `dict` is modelled as an association list `List (String × α)` with
  `dlookup` / `dinsert` / `derase` mirroring `get` / item-assignment / `del`;
* Python share quantities (`int`) are modelled as `ℤ`;
* fallible pandas values (NaN / missing) are modelled as `Option ℚ`.
-/

/-- dictionary lookup, mirroring Python `d.get(k)` / `k in d`. -/
def dlookup {α : Type} (k : String) : List (String × α) → Option α
  | [] => none
  | (k', v) :: rest => if k = k' then some v else dlookup k rest

/-- dictionary write `d[k] = v`: replaces the first binding of `k`, else appends. -/
def dinsert {α : Type} (k : String) (v : α) : List (String × α) → List (String × α)
  | [] => [(k, v)]
  | (k', v') :: rest => if k = k' then (k, v) :: rest else (k', v') :: dinsert k v rest

/-- dictionary delete `del d[k]` (identity when `k` is absent, matching the
guarded deletes in the source). -/
def derase {α : Type} (k : String) (m : List (String × α)) : List (String × α) :=
  m.filter (fun kv => kv.1 ≠ k)

/-- state of `portfolio_manager.Portfolio`. -/
structure Portfolio where
  cash : ℚ
  holdings : List (String × ℤ)
  margin_requirement : ℚ
  total_value : ℚ
  short_positions : List (String × ℚ)
deriving DecidableEq

/-- `Portfolio.__init__(initial_cash)`.  The final "validate initial values"
branch of the source (`if self.cash != 10000.0 and initial_cash == 10000.0`)
is embedded as written; its condition is unsatisfiable. -/
def Portfolio.init (initial_cash : ℚ) : Portfolio :=
  let p : Portfolio :=
    { cash := initial_cash
      holdings := []
      margin_requirement := 1 / 2
      total_value := initial_cash
      short_positions := [] }
  if p.cash ≠ 10000 ∧ initial_cash = 10000 then
    { p with cash := 10000, total_value := 10000 }
  else p

/-- `Portfolio._update_total_value(price_dict)`. -/
def update_total_value (p : Portfolio) (price_dict : List (String × ℚ)) : Portfolio :=
  if p.holdings = [] then { p with total_value := p.cash }
  else
    let value := p.holdings.foldl
      (fun acc tq =>
        let current_price := (dlookup tq.1 price_dict).getD 0
        if 0 < tq.2 then acc + current_price * (tq.2 : ℚ)
        else
          let short_entry_price := (dlookup tq.1 p.short_positions).getD current_price
          let margin_held := ((|tq.2| : ℤ) : ℚ) * current_price * p.margin_requirement
          let unrealized_profit := (short_entry_price - current_price) * ((|tq.2| : ℤ) : ℚ)
          acc + (margin_held + unrealized_profit))
      p.cash
    { p with total_value := value }

/-- `Portfolio.execute_buy(ticker, quantity, price)`.  Returns the Python
return value paired with the post-state.  `step1` is the short-cover block
(lines 32-44 of the source): it credits the realized P/L, deletes the
short-entry-price entry, and replaces `quantity` by
`max 0 (quantity + current_position)`; the residual cost is `q1 * price`
in both branches, as in the source. -/
def execute_buy (p : Portfolio) (ticker : String) (quantity : ℤ) (price : ℚ) :
    Bool × Portfolio :=
  let current_position := (dlookup ticker p.holdings).getD 0
  let step1 : Portfolio × ℤ :=
    if current_position < 0 then
      let short_entry_price := (dlookup ticker p.short_positions).getD price
      let short_profit := (short_entry_price - price) * ((|current_position| : ℤ) : ℚ)
      ({ p with cash := p.cash + short_profit,
                short_positions := derase ticker p.short_positions },
       max 0 (quantity + current_position))
    else (p, quantity)
  let p1 := step1.1
  let q1 := step1.2
  let cost := (q1 : ℚ) * price
  if p1.cash < cost then (false, p1)
  else
    let h1 := dinsert ticker (current_position + q1) p1.holdings
    let p2 := { p1 with
      cash := p1.cash - cost
      holdings := if current_position + q1 = 0 then derase ticker h1 else h1 }
    (true, update_total_value p2 [(ticker, price)])

/-- `Portfolio.execute_sell(ticker, quantity, price, allow_short)`.  `step1`
is the long-closing block (lines 67-75): it credits proceeds for
`min quantity current_position` shares, writes back the reduced holding
(deleting a zero entry), and reduces `quantity`.  Note the source writes
`holdings[ticker] = current_position - quantity` in the short leg with the
*original* `current_position`, which this embedding reproduces. -/
def execute_sell (p : Portfolio) (ticker : String) (quantity : ℤ) (price : ℚ)
    (allow_short : Bool) : Bool × Portfolio :=
  let current_position := (dlookup ticker p.holdings).getD 0
  let step1 : Portfolio × ℤ :=
    if 0 < current_position then
      let sell_quantity := min quantity current_position
      let h1 := dinsert ticker (current_position - sell_quantity) p.holdings
      ({ p with
          cash := p.cash + (sell_quantity : ℚ) * price
          holdings := if current_position - sell_quantity = 0 then derase ticker h1 else h1 },
       quantity - sell_quantity)
    else (p, quantity)
  let p1 := step1.1
  let q1 := step1.2
  if 0 < q1 ∧ allow_short = true then
    let margin_required := (q1 : ℚ) * price * p1.margin_requirement
    if p1.cash < margin_required then (false, p1)
    else
      let sp1 :=
        match dlookup ticker p1.short_positions with
        | none => dinsert ticker price p1.short_positions
        | some sep =>
          let current_short : ℤ := |(dlookup ticker p1.holdings).getD 0|
          let total_short := current_short + q1
          dinsert ticker
            (((current_short : ℚ) * sep + (q1 : ℚ) * price) / (total_short : ℚ))
            p1.short_positions
      let p2 := { p1 with
        holdings := dinsert ticker (current_position - q1) p1.holdings
        short_positions := sp1
        cash := p1.cash - margin_required }
      (true, update_total_value p2 [(ticker, price)])
  else (true, update_total_value p1 [(ticker, price)])

/-- `Portfolio.close_all_positions(ticker, price)`. -/
def close_all_positions (p : Portfolio) (ticker : String) (price : ℚ) : Portfolio :=
  match dlookup ticker p.holdings with
  | none => p
  | some quantity =>
    let p1 := if 0 < quantity then (execute_sell p ticker quantity price true).2
              else (execute_buy p ticker |quantity| price).2
    { p1 with
      holdings := derase ticker p1.holdings
      short_positions := derase ticker p1.short_positions }

/-- `Portfolio.get_position(ticker)`. -/
def get_position (p : Portfolio) (ticker : String) : ℤ :=
  (dlookup ticker p.holdings).getD 0

/-- the JSON document written by `save_portfolio_state` / read by
`load_portfolio_state`.  `short_positions = none` models a file whose object
lacks the `"short_positions"` key (pre-margin schema). -/
structure PortfolioDoc where
  cash : ℚ
  holdings : List (String × ℤ)
  total_value : ℚ
  short_positions : Option (List (String × ℚ))
deriving DecidableEq

/-- `Portfolio.save_portfolio_state`. -/
def save_portfolio_state (p : Portfolio) : PortfolioDoc :=
  { cash := p.cash
    holdings := p.holdings
    total_value := p.total_value
    short_positions := some p.short_positions }

/-- `Portfolio.load_portfolio_state`: `none` models a missing file (the
source then returns `cls()`, i.e. a fresh portfolio with the default
starting cash 10000); otherwise the fields are set from the document on a
`cls(initial_cash=0)` base, with `state.get("short_positions", {})`. -/
def load_portfolio_state (file : Option PortfolioDoc) : Portfolio :=
  match file with
  | none => Portfolio.init 10000
  | some state =>
    let portfolio := Portfolio.init 0
    { portfolio with
        cash := state.cash
        holdings := state.holdings
        total_value := state.total_value
        short_positions := state.short_positions.getD [] }

/-- trading signal (`trading_logic.Signal`). -/
inductive Signal where
  | BUY
  | SELL
  | HOLD
deriving DecidableEq

/-- `trading_logic.generate_signal(short_sma, long_sma)`.  `iloc[-1]` and
`iloc[-2]` are the last and second-to-last entries. -/
def generate_signal (short_sma long_sma : List ℚ) : Signal :=
  if short_sma.length < 2 ∨ long_sma.length < 2 then Signal.HOLD
  else
    let current_short := short_sma.getD (short_sma.length - 1) 0
    let current_long := long_sma.getD (long_sma.length - 1) 0
    let prev_short := short_sma.getD (short_sma.length - 2) 0
    let prev_long := long_sma.getD (long_sma.length - 2) 0
    if prev_short < prev_long ∧ current_long < current_short then Signal.BUY
    else if prev_long < prev_short ∧ current_short < current_long then Signal.SELL
    else Signal.HOLD

/-- Python `int(x)`: truncation toward zero. -/
def truncToInt (q : ℚ) : ℤ := if 0 ≤ q then ⌊q⌋ else ⌈q⌉

/-- `trading_logic.calculate_position_size(cash_to_invest, price, volatility,
risk_factor)`. -/
def calculate_position_size (cash_to_invest price volatility risk_factor : ℚ) : ℤ :=
  let v := if volatility = 0 then 1 / 100 else volatility
  let position_value := cash_to_invest * risk_factor / v
  let shares := truncToInt (position_value / price)
  let shares2 := min shares (truncToInt (cash_to_invest / price))
  max 0 shares2

/-- `Series.pct_change()` over a close-price series: the first entry is NaN
(`none`), then `(cur - prev) / prev`, NaN/non-finite (`none`) when the
previous close is 0. -/
def pct_change_tail (prev : ℚ) : List ℚ → List (Option ℚ)
  | [] => []
  | c :: rest => (if prev = 0 then none else some ((c - prev) / prev)) :: pct_change_tail c rest

/-- `pct_change` on the whole series. -/
def pct_change : List ℚ → List (Option ℚ)
  | [] => []
  | c :: rest => none :: pct_change_tail c rest

/-- sample variance with `ddof=1` (pandas `std` squared). -/
def sampleVar (xs : List ℚ) : ℚ :=
  let n : ℚ := xs.length
  let mean := xs.sum / n
  (xs.map (fun x => (x - mean) ^ 2)).sum / (n - 1)

/-- `Series.rolling(window=w).std()` definedness structure, carrying the
sample *variance* of each full window (the source takes its square root,
which is irrational in general; every claim under verification concerns
only which entries are defined, which the square root does not change).
Entry `i` is defined iff the window ending at `i` is complete
(`w ≤ i + 1`), all of its values are defined, and `2 ≤ w` (one observation
with `ddof=1` yields NaN). -/
def rollingVar (xs : List (Option ℚ)) (w : ℕ) : List (Option ℚ) :=
  (List.range xs.length).map (fun i =>
    if 2 ≤ w ∧ w ≤ i + 1 then
      let win := (xs.drop (i + 1 - w)).take w
      if win.all (fun o => o.isSome) then some (sampleVar (win.map (fun o => o.getD 0)))
      else none
    else none)

/-- `trading_logic.calculate_volatility(data, window)` on the series of
closes.  `minute_freq` models `data.index.freq == 'T'`.  The value is the
last entry of the rolling computation (`none` = NaN).  The source line
`return volatility if volatility is not None else 0.01` is embedded as the
identity on that value: `volatility` is a float (possibly NaN), and
`float('nan') is not None` is `True` in Python, so the `0.01` branch is
unreachable and NaN is returned as-is. -/
def calculate_volatility (minute_freq : Bool) (closes : List ℚ) (window : ℕ) : Option ℚ :=
  let w := if minute_freq then min window (closes.length / 2) else window
  let returns := pct_change closes
  (rollingVar returns w).getLastD none

/-! ### Dictionary lemmas -/

theorem dlookup_dinsert_self {α : Type} (k : String) (v : α) (m : List (String × α)) :
    dlookup k (dinsert k v m) = some v := by
  induction m with
  | nil => simp [dinsert, dlookup]
  | cons kv rest ih =>
    obtain ⟨a, b⟩ := kv
    by_cases h : k = a <;> simp [dinsert, dlookup, h, ih]

theorem dlookup_dinsert_ne {α : Type} {s k : String} (h : s ≠ k) (v : α)
    (m : List (String × α)) :
    dlookup s (dinsert k v m) = dlookup s m := by
  induction m with
  | nil => simp [dinsert, dlookup, h]
  | cons kv rest ih =>
    obtain ⟨a, b⟩ := kv
    by_cases h2 : k = a
    · subst h2; simp [dinsert, dlookup, h]
    · by_cases h3 : s = a <;> simp [dinsert, dlookup, h2, h3, ih]

theorem derase_cons_self {α : Type} (k : String) (b : α) (rest : List (String × α)) :
    derase k ((k, b) :: rest) = derase k rest := by
  simp [derase]

theorem derase_cons_ne {α : Type} {k a : String} (h : a ≠ k) (b : α)
    (rest : List (String × α)) :
    derase k ((a, b) :: rest) = (a, b) :: derase k rest := by
  simp [derase, h]

theorem dlookup_derase_self {α : Type} (k : String) (m : List (String × α)) :
    dlookup k (derase k m) = none := by
  induction m with
  | nil => simp [derase, dlookup]
  | cons kv rest ih =>
    obtain ⟨a, b⟩ := kv
    by_cases h : a = k
    · subst h; rw [derase_cons_self]; exact ih
    · rw [derase_cons_ne h]
      have h2 : k ≠ a := fun hk => h hk.symm
      simp [dlookup, h2, ih]

theorem dlookup_derase_ne {α : Type} {s k : String} (h : s ≠ k)
    (m : List (String × α)) :
    dlookup s (derase k m) = dlookup s m := by
  induction m with
  | nil => simp [derase, dlookup]
  | cons kv rest ih =>
    obtain ⟨a, b⟩ := kv
    by_cases h2 : a = k
    · subst h2; rw [derase_cons_self]
      simp [dlookup, h, ih]
    · rw [derase_cons_ne h2]
      by_cases h3 : s = a <;> simp [dlookup, h3, ih]

/-! ### `update_total_value` only writes `total_value` -/

theorem update_total_value_cash (p : Portfolio) (d : List (String × ℚ)) :
    (update_total_value p d).cash = p.cash := by
  unfold update_total_value; split <;> rfl

theorem update_total_value_holdings (p : Portfolio) (d : List (String × ℚ)) :
    (update_total_value p d).holdings = p.holdings := by
  unfold update_total_value; split <;> rfl

theorem update_total_value_short_positions (p : Portfolio) (d : List (String × ℚ)) :
    (update_total_value p d).short_positions = p.short_positions := by
  unfold update_total_value; split <;> rfl

theorem update_total_value_margin_requirement (p : Portfolio) (d : List (String × ℚ)) :
    (update_total_value p d).margin_requirement = p.margin_requirement := by
  unfold update_total_value; split <;> rfl

/-! ### calls do not touch other tickers' entries -/

theorem execute_buy_dlookup_ne (p : Portfolio) (t : String) (q : ℤ) (pr : ℚ)
    {s : String} (hs : s ≠ t) :
    dlookup s (execute_buy p t q pr).2.holdings = dlookup s p.holdings ∧
    dlookup s (execute_buy p t q pr).2.short_positions = dlookup s p.short_positions := by
  simp only [execute_buy]
  split_ifs with h1 h2 h3 <;>
    simp [update_total_value_holdings, update_total_value_short_positions,
      dlookup_dinsert_ne hs, dlookup_derase_ne hs]

theorem execute_sell_dlookup_ne (p : Portfolio) (t : String) (q : ℤ) (pr : ℚ) (b : Bool)
    {s : String} (hs : s ≠ t) :
    dlookup s (execute_sell p t q pr b).2.holdings = dlookup s p.holdings ∧
    dlookup s (execute_sell p t q pr b).2.short_positions = dlookup s p.short_positions := by
  cases hsp : dlookup t p.short_positions with
  | none =>
    simp only [execute_sell]
    split_ifs <;>
      simp [hsp, update_total_value_holdings, update_total_value_short_positions,
        dlookup_dinsert_ne hs, dlookup_derase_ne hs]
  | some sep =>
    simp only [execute_sell]
    split_ifs <;>
      simp [hsp, update_total_value_holdings, update_total_value_short_positions,
        dlookup_dinsert_ne hs, dlookup_derase_ne hs]

/-! ### cash accounting lemmas -/

theorem execute_buy_true_cash_nonneg (p : Portfolio) (t : String) (q : ℤ) (pr : ℚ)
    (h : (execute_buy p t q pr).1 = true) : 0 ≤ (execute_buy p t q pr).2.cash := by
  simp only [execute_buy] at h ⊢
  split_ifs at h ⊢ with h1 h2 h3 <;>
    simp_all [update_total_value_cash]

theorem execute_sell_cash_nonneg (p : Portfolio) (t : String) (q : ℤ) (pr : ℚ) (b : Bool)
    (hc : 0 ≤ p.cash) (hq : 0 < q) (hpr : 0 < pr) :
    0 ≤ (execute_sell p t q pr b).2.cash := by
  cases hsp : dlookup t p.short_positions with
  | none =>
    simp only [execute_sell]
    split_ifs with h1 h2 h3 h4 h5 h6 <;>
      simp_all [update_total_value_cash, hsp] <;>
      first
      | linarith
      | (have hx : (0:ℚ) < (q:ℚ) ⊓ (((dlookup t p.holdings).getD 0 : ℤ) : ℚ) :=
          lt_min (by exact_mod_cast hq) (by exact_mod_cast h1)
         have hy := mul_pos hx hpr
         linarith)
  | some sep =>
    simp only [execute_sell]
    split_ifs with h1 h2 h3 h4 h5 h6 <;>
      simp_all [update_total_value_cash, hsp] <;>
      first
      | linarith
      | (have hx : (0:ℚ) < (q:ℚ) ⊓ (((dlookup t p.holdings).getD 0 : ℤ) : ℚ) :=
          lt_min (by exact_mod_cast hq) (by exact_mod_cast h1)
         have hy := mul_pos hx hpr
         linarith)

/-! ### call sequences -/

/-- a single ledger call, for stating reachability properties. -/
inductive Op where
  | buy (ticker : String) (quantity : ℤ) (price : ℚ)
  | sell (ticker : String) (quantity : ℤ) (price : ℚ) (allow_short : Bool)
  | closeAll (ticker : String) (price : ℚ)
deriving DecidableEq

/-- quantity (where present) and price of the call are positive. -/
def Op.valid : Op → Bool
  | .buy _ q pr => decide (0 < q) && decide (0 < pr)
  | .sell _ q pr _ => decide (0 < q) && decide (0 < pr)
  | .closeAll _ pr => decide (0 < pr)

/-- whether the call is an `execute_buy`. -/
def Op.isBuy : Op → Bool
  | .buy _ _ _ => true
  | _ => false

/-- whether the call is a `close_all_positions`. -/
def Op.isCloseAll : Op → Bool
  | .closeAll _ _ => true
  | _ => false

/-- the state after one call (the returned boolean is discarded). -/
def apply_op (p : Portfolio) : Op → Portfolio
  | .buy t q pr => (execute_buy p t q pr).2
  | .sell t q pr b => (execute_sell p t q pr b).2
  | .closeAll t pr => close_all_positions p t pr

/-- the state after a sequence of calls. -/
def run (p : Portfolio) (ops : List Op) : Portfolio := ops.foldl apply_op p

/-- every `execute_buy` call in the trace of `ops` from `p` returns `True`. -/
def buysSucceed : Portfolio → List Op → Prop
  | _, [] => True
  | p, Op.buy t q pr :: rest =>
      (execute_buy p t q pr).1 = true ∧ buysSucceed (execute_buy p t q pr).2 rest
  | p, Op.sell t q pr b :: rest => buysSucceed (execute_sell p t q pr b).2 rest
  | p, Op.closeAll t pr :: rest => buysSucceed (close_all_positions p t pr) rest

/-! ### the short-entry-price / holdings invariant -/

/-- strengthened induction invariant for the amended C2: every held position
is short, and the short-entry-price map has exactly the held tickers. -/
def all_short_state (p : Portfolio) : Prop :=
  ∀ t : String, (∀ q, dlookup t p.holdings = some q → q < 0) ∧
    (dlookup t p.short_positions).isSome = (dlookup t p.holdings).isSome

/-- the C2 property: `short_positions` contains exactly the tickers whose
holding is negative. -/
def sp_matches_negative (p : Portfolio) : Prop :=
  ∀ t : String, (dlookup t p.short_positions).isSome = true ↔
    ∃ q, dlookup t p.holdings = some q ∧ q < 0

theorem all_short_state.sp_matches (p : Portfolio) (h : all_short_state p) :
    sp_matches_negative p := by
  intro t
  obtain ⟨hneg, hiso⟩ := h t
  constructor
  · intro hsome
    rw [hsome] at hiso
    cases hold : dlookup t p.holdings with
    | none => rw [hold] at hiso; simp at hiso
    | some c => exact ⟨c, rfl, hneg c hold⟩
  · rintro ⟨c, hc, _⟩
    rw [hc] at hiso
    simpa using hiso

theorem Portfolio.init_all_short (c : ℚ) : all_short_state (Portfolio.init c) := by
  simp only [Portfolio.init]
  split <;> (intro t; simp [dlookup])

theorem execute_sell_preserves_all_short (p : Portfolio) (h : all_short_state p)
    (t : String) (q : ℤ) (pr : ℚ) (b : Bool) :
    all_short_state (execute_sell p t q pr b).2 := by
  intro s
  by_cases hs : s = t
  · subst hs
    cases hold : dlookup s p.holdings with
    | none =>
      have hsp : dlookup s p.short_positions = none := by
        have h2 := (h s).2
        rw [hold] at h2
        simpa using h2
      simp only [execute_sell, hold, hsp]
      split_ifs with h1 h2 h3 <;>
        simp_all [update_total_value_holdings, update_total_value_short_positions,
          dlookup_dinsert_self, hold, hsp]
    | some c =>
      have hneg : c < 0 := (h s).1 c hold
      have hsome : (dlookup s p.short_positions).isSome = true := by
        have h2 := (h s).2
        rw [hold] at h2
        simpa using h2
      obtain ⟨sep, hsp⟩ := Option.isSome_iff_exists.mp hsome
      simp only [execute_sell, hold, hsp]
      split_ifs with h1 h2 h3 <;>
        simp_all [update_total_value_holdings, update_total_value_short_positions,
          dlookup_dinsert_self, hold, hsp] <;> omega
  · have hne := execute_sell_dlookup_ne p t q pr b hs
    constructor
    · intro q2 hq2
      rw [hne.1] at hq2
      exact (h s).1 q2 hq2
    · rw [hne.1, hne.2]
      exact (h s).2

theorem close_all_preserves_all_short (p : Portfolio) (h : all_short_state p)
    (t : String) (pr : ℚ) : all_short_state (close_all_positions p t pr) := by
  cases hold : dlookup t p.holdings with
  | none => simpa [close_all_positions, hold] using h
  | some c =>
    intro s
    by_cases hs : s = t
    · subst hs
      simp only [close_all_positions, hold]
      split_ifs with hc <;> simp [dlookup_derase_self]
    · simp only [close_all_positions, hold]
      split_ifs with hc
      · have hne := execute_sell_dlookup_ne p t c pr true hs
        constructor
        · intro q2 hq2
          rw [dlookup_derase_ne hs, hne.1] at hq2
          exact (h s).1 q2 hq2
        · rw [dlookup_derase_ne hs, dlookup_derase_ne hs, hne.1, hne.2]
          exact (h s).2
      · have hne := execute_buy_dlookup_ne p t |c| pr hs
        constructor
        · intro q2 hq2
          rw [dlookup_derase_ne hs, hne.1] at hq2
          exact (h s).1 q2 hq2
        · rw [dlookup_derase_ne hs, dlookup_derase_ne hs, hne.1, hne.2]
          exact (h s).2

theorem run_preserves_all_short (ops : List Op) : ∀ p : Portfolio, all_short_state p →
    (∀ op ∈ ops, op.isBuy = false) → all_short_state (run p ops) := by
  induction ops with
  | nil => intro p hp _; exact hp
  | cons op rest ih =>
    intro p hp hops
    have hrest : ∀ op2 ∈ rest, op2.isBuy = false :=
      fun op2 ho => hops op2 (List.mem_cons_of_mem _ ho)
    cases op with
    | buy t q pr => simpa [Op.isBuy] using hops _ (List.mem_cons_self _ _)
    | sell t q pr b =>
      exact ih _ (execute_sell_preserves_all_short p hp t q pr b) hrest
    | closeAll t pr =>
      exact ih _ (close_all_preserves_all_short p hp t pr) hrest

theorem run_cash_nonneg (ops : List Op) : ∀ p : Portfolio, 0 ≤ p.cash →
    (∀ op ∈ ops, op.valid = true ∧ op.isCloseAll = false) → buysSucceed p ops →
    0 ≤ (run p ops).cash := by
  induction ops with
  | nil => intro p hp _ _; exact hp
  | cons op rest ih =>
    intro p hp hvalid hbs
    have hrest : ∀ op2 ∈ rest, op2.valid = true ∧ op2.isCloseAll = false :=
      fun op2 ho => hvalid op2 (List.mem_cons_of_mem _ ho)
    cases op with
    | buy t q pr =>
      obtain ⟨hb, hbs2⟩ := hbs
      exact ih _ (execute_buy_true_cash_nonneg p t q pr hb) hrest hbs2
    | sell t q pr b =>
      have hv := (hvalid _ (List.mem_cons_self _ _)).1
      simp only [Op.valid, Bool.and_eq_true, decide_eq_true_eq] at hv
      exact ih _ (execute_sell_cash_nonneg p t q pr b hp hv.1 hv.2) hrest hbs
    | closeAll t pr =>
      have hv := (hvalid _ (List.mem_cons_self _ _)).2
      simp [Op.isCloseAll] at hv

/-! ### stale total-value and position-size helper lemmas -/

theorem execute_buy_false_total_value (p : Portfolio) (t : String) (q : ℤ) (pr : ℚ)
    (h : (execute_buy p t q pr).1 = false) :
    (execute_buy p t q pr).2.total_value = p.total_value := by
  simp only [execute_buy] at h ⊢
  split_ifs at h ⊢ with h1 h2 h3 <;> simp_all

theorem execute_sell_false_total_value (p : Portfolio) (t : String) (q : ℤ) (pr : ℚ)
    (b : Bool) (h : (execute_sell p t q pr b).1 = false) :
    (execute_sell p t q pr b).2.total_value = p.total_value := by
  simp only [execute_sell] at h ⊢
  split_ifs at h ⊢ with h1 h2 h3 h4 h5 h6 <;> simp_all

theorem truncToInt_mono {a b : ℚ} (h : a ≤ b) : truncToInt a ≤ truncToInt b := by
  unfold truncToInt
  split_ifs with h1 h2 h3
  · exact Int.floor_mono h
  · exact absurd (le_trans h1 h) h2
  · refine le_trans (Int.ceil_le.mpr ?ha) (Int.floor_nonneg.mpr h3)
    exact_mod_cast le_of_not_le h1
  · exact Int.ceil_mono h

theorem calculate_position_size_vol_antitone (c pr rf : ℚ) {v1 v2 : ℚ}
    (hc : 0 < c) (hrf : 0 ≤ rf) (hpr : 0 < pr) (hv1 : 0 < v1) (h12 : v1 ≤ v2) :
    calculate_position_size c pr v2 rf ≤ calculate_position_size c pr v1 rf := by
  have hv2 : 0 < v2 := lt_of_lt_of_le hv1 h12
  simp only [calculate_position_size, hv1.ne', hv2.ne', if_false]
  have hq : c * rf / v2 / pr ≤ c * rf / v1 / pr := by
    have hcrf : 0 ≤ c * rf := mul_nonneg hc.le hrf
    gcongr
  exact max_le_max le_rfl (min_le_min (truncToInt_mono hq) le_rfl)

theorem calculate_position_size_rf_monotone (c pr v : ℚ) {rf1 rf2 : ℚ}
    (hc : 0 ≤ c) (hpr : 0 < pr) (hv : 0 < v) (h12 : rf1 ≤ rf2) :
    calculate_position_size c pr v rf1 ≤ calculate_position_size c pr v rf2 := by
  simp only [calculate_position_size, hv.ne', if_false]
  have hq : c * rf1 / v / pr ≤ c * rf2 / v / pr := by gcongr
  exact max_le_max le_rfl (min_le_min (truncToInt_mono hq) le_rfl)

/-! ### claim theorems -/

/-- C1: opening a short of 100 at price 10 debits cash by 500 and records the
entry price and the -100 holding; covering with a buy of 100 at price 8
credits the 200 profit and deletes the short-entry-price entry, but the
holdings entry is NOT removed: the cover never subtracts the covered shares,
so `holdings["T"]` remains -100 (the claim says the entry is removed). -/
theorem C1_short_open_then_cover_state :
    (execute_sell (Portfolio.init 10000) "T" 100 10 true).1 = true ∧
    (execute_sell (Portfolio.init 10000) "T" 100 10 true).2.cash = 9500 ∧
    dlookup "T" (execute_sell (Portfolio.init 10000) "T" 100 10 true).2.holdings
      = some (-100) ∧
    dlookup "T" (execute_sell (Portfolio.init 10000) "T" 100 10 true).2.short_positions
      = some 10 ∧
    (execute_buy (execute_sell (Portfolio.init 10000) "T" 100 10 true).2 "T" 100 8).1
      = true ∧
    (execute_buy (execute_sell (Portfolio.init 10000) "T" 100 10 true).2 "T" 100 8).2.cash
      = 9700 ∧
    dlookup "T"
      (execute_buy (execute_sell (Portfolio.init 10000) "T" 100 10 true).2 "T" 100 8).2.short_positions
      = none ∧
    dlookup "T"
      (execute_buy (execute_sell (Portfolio.init 10000) "T" 100 10 true).2 "T" 100 8).2.holdings
      = some (-100) := by
  decide

/-- C3: with a long of 10 shares, `execute_sell("T", 15, 10)` closes the long
and opens the short leg, but writes `current_position - quantity = 10 - 5 = 5`
into holdings (stale `current_position`), leaving a LONG holding of 5 with a
short entry price recorded, instead of the net short -5 the claim states. -/
theorem C3_long_to_short_stale_position :
    (execute_buy (Portfolio.init 10000) "T" 10 10).1 = true ∧
    (execute_sell (execute_buy (Portfolio.init 10000) "T" 10 10).2 "T" 15 10 true).1
      = true ∧
    dlookup "T" (execute_sell (execute_buy (Portfolio.init 10000) "T" 10 10).2
      "T" 15 10 true).2.holdings = some 5 ∧
    dlookup "T" (execute_sell (execute_buy (Portfolio.init 10000) "T" 10 10).2
      "T" 15 10 true).2.holdings ≠ some (-5) ∧
    dlookup "T" (execute_sell (execute_buy (Portfolio.init 10000) "T" 10 10).2
      "T" 15 10 true).2.short_positions = some 10 ∧
    (execute_sell (execute_buy (Portfolio.init 10000) "T" 10 10).2
      "T" 15 10 true).2.cash = 9975 := by
  decide

/-- C8: on a three-close series with window 20 the rolling standard deviation
has no complete window, pandas yields NaN (modelled `none`), and since
`float('nan') is not None` the `0.01` fallback branch never fires: the
function returns NaN, not the claimed fallback value 0.01. -/
theorem C8_insufficient_data_returns_nan :
    calculate_volatility false [100, 101, 102] 20 = none ∧
    calculate_volatility false [100, 101, 102] 20 ≠ some (1 / 100) := by
  decide

/-- C9: saving then loading reproduces cash, holdings, total_value and
short_positions exactly; loading a document without the `short_positions`
key yields an empty map; loading with no file yields a fresh portfolio with
the default starting cash 10000. -/
theorem C9_save_load_round_trip :
    (∀ p : Portfolio,
      (load_portfolio_state (some (save_portfolio_state p))).cash = p.cash ∧
      (load_portfolio_state (some (save_portfolio_state p))).holdings = p.holdings ∧
      (load_portfolio_state (some (save_portfolio_state p))).total_value = p.total_value ∧
      (load_portfolio_state (some (save_portfolio_state p))).short_positions
        = p.short_positions) ∧
    (∀ (c : ℚ) (h : List (String × ℤ)) (tv : ℚ),
      (load_portfolio_state (some ⟨c, h, tv, none⟩)).short_positions = []) ∧
    load_portfolio_state none = Portfolio.init 10000 ∧
    (Portfolio.init 10000).cash = 10000 := by
  refine ⟨fun p => ⟨rfl, rfl, rfl, rfl⟩, fun c h tv => rfl, rfl, ?hc⟩
  decide

/-- C2 (amended): restricted to sequences of `execute_sell` and
`close_all_positions` calls (no `execute_buy`), every reachable state's
`short_positions` map contains exactly the tickers with negative holdings. -/
theorem C2_short_entries_match_negative_holdings (ops : List Op)
    (hops : ∀ op ∈ ops, op.valid = true ∧ op.isBuy = false) :
    sp_matches_negative (run (Portfolio.init 10000) ops) :=
  all_short_state.sp_matches _
    (run_preserves_all_short ops _ (Portfolio.init_all_short 10000)
      (fun op ho => (hops op ho).2))

theorem C2_witness :
    sp_matches_negative (run (Portfolio.init 10000) [Op.sell "A" 5 10 true]) :=
  C2_short_entries_match_negative_holdings [Op.sell "A" 5 10 true] (by decide)

/-- C2 counterexample: after `sell("T",100,10)` then `buy("T",100,8)` (both
valid calls, both returning True) the holding is still -100 but the
short-entry-price entry has been deleted, so the map does not contain the
ticker with the negative holding. -/
theorem C2_counterexample :
    (∀ op ∈ [Op.sell "T" 100 10 true, Op.buy "T" 100 8], op.valid = true) ∧
    dlookup "T" (run (Portfolio.init 10000)
      [Op.sell "T" 100 10 true, Op.buy "T" 100 8]).holdings = some (-100) ∧
    dlookup "T" (run (Portfolio.init 10000)
      [Op.sell "T" 100 10 true, Op.buy "T" 100 8]).short_positions = none := by
  decide

/-- C4 (amended): an `execute_buy` that returns True always leaves cash
nonnegative; an `execute_sell` with positive quantity and price preserves
nonnegative cash whether it returns True or False; hence cash stays
nonnegative along any buy/sell sequence in which every `execute_buy`
returns True.  (A failed buy on a short position can drive cash negative.) -/
theorem C4_cash_nonneg_amended :
    (∀ (p : Portfolio) (t : String) (q : ℤ) (pr : ℚ),
      (execute_buy p t q pr).1 = true → 0 ≤ (execute_buy p t q pr).2.cash) ∧
    (∀ (p : Portfolio) (t : String) (q : ℤ) (pr : ℚ) (b : Bool),
      0 ≤ p.cash → 0 < q → 0 < pr → 0 ≤ (execute_sell p t q pr b).2.cash) ∧
    (∀ (p : Portfolio) (ops : List Op), 0 ≤ p.cash →
      (∀ op ∈ ops, op.valid = true ∧ op.isCloseAll = false) →
      buysSucceed p ops → 0 ≤ (run p ops).cash) :=
  ⟨execute_buy_true_cash_nonneg, execute_sell_cash_nonneg,
   fun p ops h1 h2 h3 => run_cash_nonneg ops p h1 h2 h3⟩

theorem C4_witness :
    0 ≤ (run (Portfolio.init 10000) [Op.buy "A" 1 100, Op.sell "A" 1 200 true]).cash :=
  C4_cash_nonneg_amended.2.2 (Portfolio.init 10000)
    [Op.buy "A" 1 100, Op.sell "A" 1 200 true] (by decide) (by decide)
    (by exact ⟨by decide, trivial⟩)

/-- C4 counterexample: from a fresh portfolio, `buy A 1@100`, short
`sell B 100@10`, then a failed cover `buy B 200@200` (which realizes a 19000
loss and returns False) leave cash at -9600; the subsequent
`sell A 1@100` RETURNS TRUE and leaves cash at -9500 < 0. -/
theorem C4_counterexample :
    0 ≤ (Portfolio.init 10000).cash ∧
    (∀ op ∈ [Op.buy "A" 1 100, Op.sell "B" 100 10 true, Op.buy "B" 200 200,
      Op.sell "A" 1 100 true], op.valid = true) ∧
    (execute_sell (run (Portfolio.init 10000)
      [Op.buy "A" 1 100, Op.sell "B" 100 10 true, Op.buy "B" 200 200])
      "A" 1 100 true).1 = true ∧
    (execute_sell (run (Portfolio.init 10000)
      [Op.buy "A" 1 100, Op.sell "B" 100 10 true, Op.buy "B" 200 200])
      "A" 1 100 true).2.cash < 0 := by
  decide

/-- C7 (amended): the position size is never negative; for positive cash,
price, nonnegative risk factor it is antitone (not strictly decreasing) in
the volatility on positives, and monotone (not strictly increasing) in the
risk factor.  Integer truncation makes the strict versions false. -/
theorem C7_position_size_monotonicity :
    (∀ c pr v rf : ℚ, 0 ≤ calculate_position_size c pr v rf) ∧
    (∀ c pr rf v1 v2 : ℚ, 0 < c → 0 ≤ rf → 0 < pr → 0 < v1 → v1 ≤ v2 →
      calculate_position_size c pr v2 rf ≤ calculate_position_size c pr v1 rf) ∧
    (∀ c pr v rf1 rf2 : ℚ, 0 < c → 0 < pr → 0 < v → rf1 ≤ rf2 →
      calculate_position_size c pr v rf1 ≤ calculate_position_size c pr v rf2) :=
  ⟨fun c pr v rf => by simp only [calculate_position_size]; exact le_max_left 0 _,
   fun c pr rf v1 v2 hc hrf hpr hv1 h12 =>
     calculate_position_size_vol_antitone c pr rf hc hrf hpr hv1 h12,
   fun c pr v rf1 rf2 hc hpr hv h12 =>
     calculate_position_size_rf_monotone c pr v hc.le hpr hv h12⟩

theorem C7_witness :
    0 ≤ calculate_position_size 1000 50 1 (2/100) ∧
    calculate_position_size 1000 50 (1/50) (2/100)
      ≤ calculate_position_size 1000 50 (1/100) (2/100) ∧
    calculate_position_size 1000 50 (1/100) (1/100)
      ≤ calculate_position_size 1000 50 (1/100) (2/100) :=
  ⟨C7_position_size_monotonicity.1 1000 50 1 (2/100),
   C7_position_size_monotonicity.2.1 1000 50 (2/100) (1/100) (1/50)
     (by norm_num) (by norm_num) (by norm_num) (by norm_num) (by norm_num),
   C7_position_size_monotonicity.2.2 1000 50 (1/100) (1/100) (2/100)
     (by norm_num) (by norm_num) (by norm_num) (by norm_num)⟩

/-- C7 counterexample: at cash 1000, price 50, risk factor 0.02 the sizes at
volatility 1 and volatility 2 are both 0, so strictly increasing the
volatility does not strictly decrease the share count. -/
theorem C7_counterexample :
    (0:ℚ) < 1000 ∧ (0:ℚ) < 50 ∧ (0:ℚ) < 1 ∧ (1:ℚ) < 2 ∧
    calculate_position_size 1000 50 1 (2/100) = 0 ∧
    calculate_position_size 1000 50 2 (2/100) = 0 ∧
    ¬(calculate_position_size 1000 50 2 (2/100)
        < calculate_position_size 1000 50 1 (2/100)) := by
  decide

/-- C5: on a ticker with an existing short position, `execute_buy` credits
the cover P/L and deletes the short-entry-price entry before the
affordability check, and a failing residual check returns False with those
two mutations retained (holdings and total_value untouched); on a ticker
with no short position, an unaffordable buy returns False with no state
change at all. -/
theorem C5_cover_precedes_affordability_check :
    (∀ (p : Portfolio) (t : String) (q : ℤ) (pr : ℚ) (c : ℤ),
      dlookup t p.holdings = some c → c < 0 →
      p.cash + ((dlookup t p.short_positions).getD pr - pr) * ((|c| : ℤ) : ℚ)
        < ((max 0 (q + c) : ℤ) : ℚ) * pr →
      execute_buy p t q pr =
        (false,
          { p with
            cash := p.cash + ((dlookup t p.short_positions).getD pr - pr) * ((|c| : ℤ) : ℚ)
            short_positions := derase t p.short_positions })) ∧
    (∀ (p : Portfolio) (t : String) (q : ℤ) (pr : ℚ),
      0 ≤ (dlookup t p.holdings).getD 0 →
      p.cash < (q : ℚ) * pr →
      execute_buy p t q pr = (false, p)) := by
  constructor
  · intro p t q pr c hold hneg hcash
    simp only [execute_buy, hold, Option.getD_some]
    rw [if_pos hneg]
    simp only []
    rw [if_pos hcash]
  · intro p t q pr hpos hcash
    simp only [execute_buy]
    rw [if_neg (not_lt.mpr hpos)]
    simp only []
    rw [if_pos hcash]

theorem C5_witness :
    execute_buy ⟨100, [("T", -10)], 1/2, 0, [("T", 5)]⟩ "T" 30 20 =
      (false, ⟨100 + ((5:ℚ) - 20) * (((|(-10:ℤ)| : ℤ)) : ℚ), [("T", -10)], 1/2, 0, []⟩) ∧
    execute_buy (Portfolio.init 10000) "A" 200 100 = (false, Portfolio.init 10000) := by
  constructor
  · have h := C5_cover_precedes_affordability_check.1
      ⟨100, [("T", -10)], 1/2, 0, [("T", 5)]⟩ "T" 30 20 (-10)
      (by decide) (by decide) (by decide)
    rw [h]
    decide
  · exact C5_cover_precedes_affordability_check.2 (Portfolio.init 10000) "A" 200 100
      (by decide) (by decide)

/-- C10: when `execute_sell` fully closes a long of `c` shares and then fails
the short leg on the margin check, it returns False with `total_value`
untouched (stale) while cash and holdings already reflect the long close;
moreover no False-returning path of `execute_buy` or `execute_sell` ever
recomputes `total_value`. -/
theorem C10_failed_short_leg_stale_total_value :
    (∀ (p : Portfolio) (t : String) (q : ℤ) (pr : ℚ) (c : ℤ),
      dlookup t p.holdings = some c → 0 < c → c < q →
      p.cash + (c : ℚ) * pr < ((q - c : ℤ) : ℚ) * pr * p.margin_requirement →
      (execute_sell p t q pr true).1 = false ∧
      (execute_sell p t q pr true).2.total_value = p.total_value ∧
      (execute_sell p t q pr true).2.cash = p.cash + (c : ℚ) * pr ∧
      dlookup t (execute_sell p t q pr true).2.holdings = none ∧
      (execute_sell p t q pr true).2.short_positions = p.short_positions) ∧
    (∀ (p : Portfolio) (t : String) (q : ℤ) (pr : ℚ),
      (execute_buy p t q pr).1 = false →
      (execute_buy p t q pr).2.total_value = p.total_value) ∧
    (∀ (p : Portfolio) (t : String) (q : ℤ) (pr : ℚ) (b : Bool),
      (execute_sell p t q pr b).1 = false →
      (execute_sell p t q pr b).2.total_value = p.total_value) := by
  refine ⟨?main, execute_buy_false_total_value, execute_sell_false_total_value⟩
  intro p t q pr c hold hcpos hclt hmargin
  have hmin : min q c = c := min_eq_right (le_of_lt hclt)
  have hq1 : 0 < q - c := by omega
  simp only [execute_sell, hold, Option.getD_some]
  rw [if_pos hcpos]
  simp only [hmin, sub_self, if_pos rfl]
  rw [if_pos (show 0 < q - c ∧ True from ⟨hq1, trivial⟩)]
  rw [if_pos ?hcond]
  case hcond =>
    push_cast
    push_cast at hmargin
    linarith
  refine ⟨rfl, rfl, rfl, ?hold2, rfl⟩
  exact dlookup_derase_self t _

theorem C10_witness :
    (execute_sell ⟨0, [("A", 1)], 1/2, 42, []⟩ "A" 101 10 true).1 = false ∧
    (execute_sell ⟨0, [("A", 1)], 1/2, 42, []⟩ "A" 101 10 true).2.total_value = 42 ∧
    (execute_sell ⟨0, [("A", 1)], 1/2, 42, []⟩ "A" 101 10 true).2.cash = 10 ∧
    dlookup "A" (execute_sell ⟨0, [("A", 1)], 1/2, 42, []⟩ "A" 101 10 true).2.holdings
      = none ∧
    (execute_sell ⟨0, [("A", 1)], 1/2, 42, []⟩ "A" 101 10 true).2.short_positions = [] := by
  have h := C10_failed_short_leg_stale_total_value.1 ⟨0, [("A", 1)], 1/2, 42, []⟩
    "A" 101 10 1 (by decide) (by decide) (by decide) (by decide)
  refine ⟨h.1, h.2.1, ?hcash, h.2.2.2.1, h.2.2.2.2⟩
  rw [h.2.2.1]
  decide

theorem generate_signal_pair (a b c d : ℚ) :
    generate_signal [a, b] [c, d] =
      (if a < c ∧ d < b then Signal.BUY
       else if c < a ∧ b < d then Signal.SELL
       else Signal.HOLD) := by
  simp [generate_signal]

/-- C6: with at least two values in each series, the signal is BUY iff the
previous short value is strictly below the previous long value and the
current short value strictly above the current long value, SELL in the
mirrored case, HOLD otherwise (ties included); the result depends only on
the last two values of each series, and is HOLD when either series is
shorter than 2. -/
theorem C6_generate_signal_characterization :
    (∀ s l : List ℚ, 2 ≤ s.length → 2 ≤ l.length →
      (generate_signal s l = Signal.BUY ↔
        s.getD (s.length - 2) 0 < l.getD (l.length - 2) 0 ∧
        l.getD (l.length - 1) 0 < s.getD (s.length - 1) 0) ∧
      (generate_signal s l = Signal.SELL ↔
        l.getD (l.length - 2) 0 < s.getD (s.length - 2) 0 ∧
        s.getD (s.length - 1) 0 < l.getD (l.length - 1) 0) ∧
      (generate_signal s l = Signal.HOLD ↔
        (¬(s.getD (s.length - 2) 0 < l.getD (l.length - 2) 0 ∧
           l.getD (l.length - 1) 0 < s.getD (s.length - 1) 0) ∧
         ¬(l.getD (l.length - 2) 0 < s.getD (s.length - 2) 0 ∧
           s.getD (s.length - 1) 0 < l.getD (l.length - 1) 0))) ∧
      generate_signal s l =
        generate_signal [s.getD (s.length - 2) 0, s.getD (s.length - 1) 0]
          [l.getD (l.length - 2) 0, l.getD (l.length - 1) 0]) ∧
    (∀ s l : List ℚ, s.length < 2 ∨ l.length < 2 →
      generate_signal s l = Signal.HOLD) := by
  constructor
  · intro s l hs hl
    have hlen : ¬(s.length < 2 ∨ l.length < 2) := by omega
    refine ⟨?hbuy, ?hsell, ?hhold, ?hlast⟩ <;>
      (try rw [generate_signal_pair]) <;>
      simp only [generate_signal, hlen, if_false] <;>
      split_ifs with hA hB <;>
      simp_all <;>
      exact fun h2 => absurd h2 (lt_asymm hA.1)
  · intro s l h
    simp [generate_signal, h]

theorem C6_witness :
    generate_signal [1, 5] [2, 3] = Signal.BUY :=
  ((C6_generate_signal_characterization.1 [1, 5] [2, 3] (by decide) (by decide)).1).mpr
    (by decide)
